import Mathlib

/-!
# Verification of the Excel → MariaDB schema-inference engine

Shallow embedding of `excel_mariadb_converter.py` (classes `ExcelAnalyzer`
and `MariaDBManager`).  Pandas `Series` are modelled as `List (Option Cell)`
(`none` is a missing value, NaN).  The pandas storage dtype of a column —
which the source consults through `pd.api.types.is_integer_dtype` etc. —
is recomputed from the cell contents by `series_dtype`, mirroring how
`pd.read_excel` assigns dtypes: a column whose values are all integers with
no missing cell is int64; a numeric column with a missing cell (or a float)
is promoted to float64; date-like columns are datetime64 (NaT allowed);
all-boolean columns with no missing cell are bool; anything else is object.

String rendering (`astype(str)`) depends on the dtype: an integral value
stored in a float64 column renders as "1.0", in an int64 column as "1".

Python string names are modelled as `String`; a NaN column header is
`Option.none`.
-/

namespace ExcelMariaDB

/-- One non-missing cell value of a sheet. Floats carry an abstract integer
mantissa: no claim depends on float arithmetic, only on the dtype promotion
they cause and on their distinctness. -/
inductive Cell where
  | intV  (n : Int)
  | floatV (n : Int)
  | boolV (b : Bool)
  | strV  (s : String)
  | dateV (d : Nat)
  deriving DecidableEq, Repr

/-- Pandas storage dtypes distinguished by `_infer_data_type`. -/
inductive Dtype where
  | int64 | float64 | datetime64 | boolDt | object
  deriving DecidableEq, Repr

def Cell.isIntCell : Cell → Bool
  | .intV _ => true
  | _ => false

def Cell.isNumCell : Cell → Bool
  | .intV _ => true
  | .floatV _ => true
  | _ => false

def Cell.isDateCell : Cell → Bool
  | .dateV _ => true
  | _ => false

def Cell.isBoolCell : Cell → Bool
  | .boolV _ => true
  | _ => false

/-- A pandas Series: the cells of one column, in row order. -/
abbrev Series := List (Option Cell)

/-- The non-null cells of a series, in order (`series.dropna()`). -/
def nonNull (s : Series) : List Cell := s.filterMap id

/-- The pandas dtype `pd.read_excel` assigns to a column with these cells;
`dropna` keeps the dtype, so rendering of the dropna'd series uses the
dtype of the full column.  An all-missing column is float64 in pandas, which
the second branch yields (vacuously all-numeric, has a missing cell). -/
def series_dtype (s : Series) : Dtype :=
  if s.isEmpty then Dtype.object
  else if s.all (·.isSome) && (nonNull s).all Cell.isIntCell then Dtype.int64
  else if (nonNull s).all Cell.isNumCell &&
          (s.any (·.isNone) || (nonNull s).any (fun c => !c.isIntCell)) then Dtype.float64
  else if (nonNull s).all Cell.isDateCell then Dtype.datetime64
  else if s.all (·.isSome) && (nonNull s).all Cell.isBoolCell then Dtype.boolDt
  else Dtype.object

/-- `astype(str)` of one cell of a series with dtype `dt`.  In a float64
column an integral value prints with a trailing ".0", as numpy does. -/
def render_cell (dt : Dtype) : Cell → String
  | .intV n => if dt = Dtype.float64 then toString n ++ ".0" else toString n
  | .floatV n => toString n ++ ".0"
  | .boolV b => if b then "True" else "False"
  | .strV s => s
  | .dateV d => toString d

/-- Minimum of a list of integers, `series.min()`; junk value on `[]`
(the source only calls it on a non-empty series). -/
def int_min : List Int → Int
  | [] => 0
  | x :: xs => xs.foldl min x

/-- Maximum of a list of integers, `series.max()`. -/
def int_max : List Int → Int
  | [] => 0
  | x :: xs => xs.foldl max x

/-- Maximum of a list of naturals, `.str.len().max()`. -/
def nat_max : List Nat → Nat
  | [] => 0
  | x :: xs => xs.foldl max x

def cellInt? : Option Cell → Option Int
  | some (.intV n) => some n
  | _ => none

/-- `ExcelAnalyzer._infer_data_type` (source lines 87–125): infer the
MariaDB type and optional VARCHAR length of one column. -/
def infer_data_type (s : Series) : String × Option Nat :=
  if (nonNull s).isEmpty then ("TEXT", none)
  else if series_dtype s = Dtype.int64 then
    let ns := s.filterMap cellInt?
    let mn := int_min ns
    let mx := int_max ns
    if -128 ≤ mn ∧ mx ≤ 127 then ("TINYINT", none)
    else if -32768 ≤ mn ∧ mx ≤ 32767 then ("SMALLINT", none)
    else if -2147483648 ≤ mn ∧ mx ≤ 2147483647 then ("INT", none)
    else ("BIGINT", none)
  else if series_dtype s = Dtype.float64 then ("DECIMAL(10,2)", none)
  else if series_dtype s = Dtype.datetime64 then ("DATETIME", none)
  else if series_dtype s = Dtype.boolDt then ("BOOLEAN", none)
  else
    let maxLength := nat_max ((nonNull s).map (fun c => (render_cell (series_dtype s) c).length))
    if maxLength ≤ 255 then ("VARCHAR", some (min (maxLength + 50) 255))
    else ("TEXT", none)

/-- Characters kept verbatim by `re.sub(r'[^a-zA-Z0-9_]', '_', name)`. -/
def keepChar (c : Char) : Bool := c.isAlpha || c.isDigit || c = '_'

/-- `ExcelAnalyzer._clean_column_name` (source lines 78–85).  A NaN header
(`none`) becomes the placeholder.  A present header is cleaned character by
character; if the cleaned string is empty, `clean_name[0]` raises
`IndexError` in Python, modelled as `Except.error`. -/
def clean_column_name : Option String → Except Unit String
  | none => .ok "unnamed_column"
  | some s =>
    let cleaned : List Char := s.data.map (fun c => if keepChar c then c else '_')
    match cleaned with
    | [] => .error ()
    | c0 :: rest =>
      let withPre : List Char :=
        if c0.isDigit then "col_".data ++ (c0 :: rest) else c0 :: rest
      .ok (String.mk (withPre.map Char.toLower))

/-- `ExcelAnalyzer._clean_table_name` (source lines 69–76), same cleaning
with a `table_` prefix and no NaN case. -/
def clean_table_name (s : String) : Except Unit String :=
  let cleaned : List Char := s.data.map (fun c => if keepChar c then c else '_')
  match cleaned with
  | [] => .error ()
  | c0 :: rest =>
    let withPre : List Char :=
      if c0.isDigit then "table_".data ++ (c0 :: rest) else c0 :: rest
    .ok (String.mk (withPre.map Char.toLower))

/-- Python `str.lower()` restricted to ASCII, as the cleaned names are. -/
def str_lower (s : String) : String := String.mk (s.data.map Char.toLower)

/-- `pat` is a prefix of the second list (helper for substring tests). -/
def leadsWith : List Char → List Char → Bool
  | [], _ => true
  | _ :: _, [] => false
  | a :: as, b :: bs => a == b && leadsWith as bs

def str_contains_aux (pat : List Char) : List Char → Bool
  | [] => leadsWith pat []
  | c :: rest => leadsWith pat (c :: rest) || str_contains_aux pat rest

/-- Python `pat in s` substring test. -/
def str_contains (s pat : String) : Bool := str_contains_aux pat.data s.data

/-- Python `s.endswith(pat)`. -/
def str_ends_with (s pat : String) : Bool := leadsWith pat.data.reverse s.data.reverse

/-- `ExcelAnalyzer._names_suggest_relationship` (source lines 226–250): the
six naming-heuristic patterns, combined with `any(...)`. -/
def names_suggest_relationship (col1 col2 target_table : String) : Bool :=
  let c1 := str_lower col1
  let c2 := str_lower col2
  let t := str_lower target_table
  (c1 == t ++ "_id") ||
  (c1 == t ++ "id") ||
  (str_ends_with c1 "_id" && str_contains c1 t) ||
  (c2 == "id" && str_contains c1 t) ||
  (c1 == c2 && str_ends_with c1 "_id") ||
  (c1 == c2 && str_contains c1 "name")

/-- `ExcelAnalyzer._check_potential_relationship` (source lines 175–214).
`_are_types_compatible` always returns True (`astype(str)` cannot fail), so
it is not modelled as a separate test.  Python's
`overlap_percentage > 0.8` divides two list lengths as IEEE doubles; for
the rational values len(overlap)/len(u1) with the list lengths that fit in
memory, the double comparison against the double nearest to 0.8 agrees with
the exact rational comparison `5·|overlap| > 4·|u1|`, which is what is used
here.  The `set(...)` values of the Python are `Finset String`. -/
def check_potential_relationship (series1 series2 : Series)
    (col1 col2 target_table : String) : Bool :=
  let s1_clean := nonNull series1
  let s2_clean := nonNull series2
  if s1_clean.isEmpty || s2_clean.isEmpty then false
  else
    let s1_unique : Finset String :=
      (s1_clean.map (render_cell (series_dtype series1))).toFinset
    let s2_unique : Finset String :=
      (s2_clean.map (render_cell (series_dtype series2))).toFinset
    let overlap := s1_unique ∩ s2_unique
    let all_values_exist := decide (s1_unique ⊆ s2_unique)
    all_values_exist ||
      (decide (5 * overlap.card > 4 * s1_unique.card) &&
        names_suggest_relationship col1 col2 target_table)

/-- One named column of a cleaned sheet. -/
structure SeriesCol where
  name : String
  values : Series
  deriving DecidableEq, Repr

/-- One cleaned sheet (`DataFrame`): its row count and its columns in
declared order. -/
structure Table where
  nrows : Nat
  cols : List SeriesCol
  deriving DecidableEq, Repr

/-- The columns of `sheets_data`, an insertion-ordered dict keyed by the
cleaned sheet name: keys are distinct by construction. -/
abbrev Sheets := List (String × Table)

/-- The uniqueness test shared by `_detect_primary_key`,
`_get_unique_columns` (source lines 131, 138, 147):
`df[col].nunique() == len(df) and df[col].notna().all()`.
`nunique` counts distinct non-null values. -/
def is_unique_col (t : Table) (c : SeriesCol) : Bool :=
  ((nonNull c.values).dedup.length == t.nrows) && c.values.all (·.isSome)

/-- `ExcelAnalyzer._get_unique_columns` (source lines 143–149).  The Python
collects the names and later re-looks the series up with `df2[col2]`; with
distinct column names (the only case in which the analysis does not raise,
see `analyze_structure`) that lookup returns exactly the column kept
here. -/
def unique_cols (t : Table) : List SeriesCol :=
  t.cols.filter (is_unique_col t)

/-- `ExcelAnalyzer._detect_primary_key` (source lines 127–141): first a
pass returning the first unique, no-null column whose lower-cased name
contains "id", then a pass returning the first unique, no-null column. -/
def detect_primary_key (t : Table) : Option String :=
  match t.cols.find? (fun c => is_unique_col t c && str_contains (str_lower c.name) "id") with
  | some c => some c.name
  | none => (t.cols.find? (fun c => is_unique_col t c)).map (·.name)

/-- The `(table2, col2)` relationship targets that one source column `c1`
finds inside target table `(n2, t2)`, in target-column order (the inner
`for col2 in unique_columns[table2]` loop of `_detect_foreign_keys`). -/
def col_targets (n2 : String) (t2 : Table) (c1 : SeriesCol) : List (String × String) :=
  (unique_cols t2).filterMap (fun c2 =>
    if check_potential_relationship c1.values c2.values c1.name c2.name n2
    then some (n2, c2.name) else none)

/-- `ExcelAnalyzer._detect_foreign_keys` (source lines 151–173), the list
`relationships[table1]` for the table at position `i`: triples
`(col1, table2, col2)` appended in enumeration order — target tables in
sheet order (skipping `i` itself), then source columns, then target
columns. -/
def relationships_for_table (sheets : Sheets) (i : Nat) (t1 : Table) :
    List (String × String × String) :=
  sheets.enum.flatMap (fun p =>
    if p.1 = i then []
    else t1.cols.flatMap (fun c1 =>
      (col_targets p.2.1 p.2.2 c1).map (fun q => (c1.name, q.1, q.2))))

/-- The `(table2, col2)` pairs satisfying the relationship test for one
fixed source column `c` of the table at position `i`, in the enumeration
order of `_detect_foreign_keys`. -/
def candidate_targets (sheets : Sheets) (i : Nat) (c : SeriesCol) :
    List (String × String) :=
  sheets.enum.flatMap (fun p =>
    if p.1 = i then [] else col_targets p.2.1 p.2.2 c)

/-- The per-column foreign-key resolution of `analyze_structure` (source
lines 274–280): the first recorded triple whose source column matches,
then stop. -/
def column_fk (rels : List (String × String × String)) (colName : String) :
    Option (String × String) :=
  (rels.find? (fun r => r.1 == colName)).map (fun r => r.2)

/-- The `ColumnInfo` dataclass (source lines 22–31). -/
structure ColumnInfo where
  name : String
  data_type : String
  is_nullable : Bool := true
  is_primary_key : Bool := false
  is_foreign_key : Bool := false
  references_table : Option String := none
  references_column : Option String := none
  max_length : Option Nat := none
  deriving DecidableEq, Repr

/-- The `TableInfo` dataclass (source lines 34–38). -/
structure TableInfo where
  name : String
  columns : List ColumnInfo
  primary_key : Option String := none
  deriving DecidableEq, Repr

/-- The `ColumnInfo` built for one column in `analyze_structure` (source
lines 266–292). -/
def build_column (pk : Option String) (rels : List (String × String × String))
    (c : SeriesCol) : ColumnInfo :=
  let ty := infer_data_type c.values
  let fk := column_fk rels c.name
  { name := c.name
    data_type := ty.1
    is_nullable := c.values.any (·.isNone)
    is_primary_key := pk == some c.name
    is_foreign_key := fk.isSome
    references_table := fk.map Prod.fst
    references_column := fk.map Prod.snd
    max_length := ty.2 }

/-- The `(table_name, TableInfo)` entry `analyze_structure` builds for the
sheet at position `p.1` (source lines 262–298). -/
def build_table_entry (sheets : Sheets) (p : Nat × String × Table) : String × TableInfo :=
  (p.2.1,
    { name := p.2.1
      columns := p.2.2.cols.map
        (build_column (detect_primary_key p.2.2) (relationships_for_table sheets p.1 p.2.2))
      primary_key := detect_primary_key p.2.2 })

/-- `ExcelAnalyzer.analyze_structure` (source lines 252–301).  The Python
raises `ValueError` when `sheets_data` is empty.  When any sheet has two
columns whose cleaned names coincide, `df[col]` inside
`_get_unique_columns` returns a DataFrame and
`df[col].nunique() == len(df) and ...` raises
"The truth value of a Series is ambiguous" before any `TableInfo` is
built; both failure modes are the `.error` cases.  Otherwise all column
names are distinct and the per-name dict/column lookups of the source
agree with the direct structural iteration used here. -/
def analyze_structure (sheets : Sheets) : Except String (List (String × TableInfo)) :=
  if sheets.isEmpty then
    .error "No data to analyze. Please read Excel file first."
  else if sheets.any (fun p => !(decide (p.2.cols.map SeriesCol.name).Nodup)) then
    .error "The truth value of a Series is ambiguous."
  else
    .ok (sheets.enum.map (build_table_entry sheets))

/-! ## MariaDBManager: statement generation and the three-phase run -/

/-- One emitted DDL statement, with the data the source interpolates into
its SQL text; `render_stmt` produces the exact string the source builds. -/
inductive MigStmt where
  | create (info : TableInfo)
  | uniqueKey (refTable refColumn : String)
  | foreignKey (table column refTable refColumn : String)
  deriving DecidableEq, Repr

/-- The per-column fragment of `_generate_create_table_sql` (source lines
379–393), including the VARCHAR length (only when `max_length` is truthy),
NOT NULL, PRIMARY KEY and AUTO_INCREMENT suffixes. -/
def column_sql (col : ColumnInfo) : String :=
  let base := "`" ++ col.name ++ "` " ++ col.data_type ++
    (match col.max_length with
     | some n => if decide (n ≠ 0) && (col.data_type == "VARCHAR")
                 then "(" ++ toString n ++ ")" else ""
     | none => "")
  let base := base ++ (if col.is_nullable then "" else " NOT NULL")
  base ++ (if col.is_primary_key then
      " PRIMARY KEY" ++
        (if col.data_type == "INT" || col.data_type == "BIGINT" ||
            col.data_type == "SMALLINT" || col.data_type == "TINYINT"
         then " AUTO_INCREMENT" else "")
    else "")

/-- `MariaDBManager._generate_create_table_sql` (source lines 375–399).
The `include_foreign_keys` parameter is accepted and ignored, as in the
source body. -/
def generate_create_table_sql (info : TableInfo) (_include_foreign_keys : Bool) : String :=
  "CREATE TABLE IF NOT EXISTS `" ++ info.name ++ "` (\n" ++
    String.intercalate ",\n" (info.columns.map (fun c => "  " ++ column_sql c)) ++
    "\n)"

/-- The SQL text of one emitted statement: the CREATE of phase 1, the
ALTER ... ADD UNIQUE KEY of phase 2 (source line 370), and the stripped
multi-line ALTER ... ADD CONSTRAINT f-string of phase 3 (source lines
408–415, trailing spaces and 16-space continuation indent preserved). -/
def render_stmt : MigStmt → String
  | .create info => generate_create_table_sql info false
  | .uniqueKey t c =>
      "ALTER TABLE `" ++ t ++ "` ADD UNIQUE KEY `unique_" ++ t ++ "_" ++ c ++
        "` (`" ++ c ++ "`)"
  | .foreignKey t c rt rc =>
      "ALTER TABLE `" ++ t ++ "` \n                ADD CONSTRAINT `fk_" ++ t ++
        "_" ++ c ++ "` \n                FOREIGN KEY (`" ++ c ++
        "`) \n                REFERENCES `" ++ rt ++ "`(`" ++ rc ++
        "`)\n                ON DELETE SET NULL ON UPDATE CASCADE"

/-- Python truthiness of an `Optional[str]`: `None` and `""` are falsy. -/
def ref_truthy : Option String → Bool
  | none => false
  | some s => !(s == "")

/-- The columns for which `_generate_foreign_key_sql` (and the scan of
`_generate_unique_constraints`) emits: `col.is_foreign_key and
col.references_table and col.references_column`. -/
def fk_cols (info : TableInfo) : List ColumnInfo :=
  info.columns.filter (fun c =>
    c.is_foreign_key && ref_truthy c.references_table && ref_truthy c.references_column)

/-- `MariaDBManager._generate_foreign_key_sql` (source lines 401–417) for
one table. -/
def fk_stmts_for (info : TableInfo) : List MigStmt :=
  (fk_cols info).map (fun c =>
    .foreignKey info.name c.name (c.references_table.getD "") (c.references_column.getD ""))

/-- The `(references_table, references_column)` pairs for which
`_generate_unique_constraints` (source lines 353–373) reaches its append,
in scan order and before deduplication: the referenced table is found in
the dict (`table_info.get`, first entry with that key) and it has a column
of the referenced name that is not its primary key. -/
def unique_gen_ref_pairs (ti : List (String × TableInfo)) : List (String × String) :=
  ti.flatMap (fun p => (fk_cols p.2).filterMap (fun c =>
    let rt := c.references_table.getD ""
    let rc := c.references_column.getD ""
    match ti.find? (fun q => q.1 == rt) with
    | some q =>
        if q.2.columns.any (fun r => r.name == rc && !r.is_primary_key)
        then some (rt, rc) else none
    | none => none))

/-- First-occurrence deduplication.  The source dedups on the string key
`f"{table}.{column}"`; for the dot-free identifiers the Normalizer
produces, that key is in bijection with the pair, so pairs are deduped
directly. -/
def dedup_keep_first (seen : List (String × String)) :
    List (String × String) → List (String × String)
  | [] => []
  | p :: rest =>
    if p ∈ seen then dedup_keep_first seen rest
    else p :: dedup_keep_first (p :: seen) rest

/-- The phase-2 statements of `create_tables`, in emission order. -/
def unique_constraint_stmts (ti : List (String × TableInfo)) : List MigStmt :=
  (dedup_keep_first [] (unique_gen_ref_pairs ti)).map (fun p => .uniqueKey p.1 p.2)

/-- The phase-1 statements: one CREATE per table, in dict order. -/
def create_stmts (ti : List (String × TableInfo)) : List MigStmt :=
  ti.map (fun p => MigStmt.create p.2)

/-- The phase-3 statements: the foreign keys of every table, in dict
order. -/
def fk_stmts_all (ti : List (String × TableInfo)) : List MigStmt :=
  ti.flatMap (fun p => fk_stmts_for p.2)

/-- The full statement sequence `sql_statements` emitted by
`MariaDBManager.create_tables` (source lines 311–351) on a run whose
phase 1 completes: every statement is appended to the list before being
executed, and phase-2/3 execution failures are caught, so the returned
list is exactly phase 1 ++ phase 2 ++ phase 3. -/
def mig_statements (ti : List (String × TableInfo)) : List MigStmt :=
  create_stmts ti ++ unique_constraint_stmts ti ++ fk_stmts_all ti

/-- Outcome of one `create_tables` call against an execution oracle:
the statements whose `conn.execute` was attempted, in order, and whether
the call returned (`true`) or raised out of phase 1 (`false`). -/
structure RunResult where
  attempted : List MigStmt
  ok : Bool
  deriving DecidableEq, Repr

/-- Phase 1 (source lines 317–322): execute each CREATE in order; the
first failure raises out of `create_tables`, so later statements are not
attempted. -/
def run_phase1 (ex : MigStmt → Bool) : List MigStmt → List MigStmt × Bool
  | [] => ([], true)
  | st :: rest =>
    if ex st then
      let r := run_phase1 ex rest
      (st :: r.1, r.2)
    else ([st], false)

/-- `MariaDBManager.create_tables` against an execution oracle `ex` (the
DB's success/failure verdict per statement).  If phase 1 completes, every
phase-2 and phase-3 statement is attempted — their failures are caught by
the inner `try/except` blocks (source lines 328–332 and 339–343) and only
logged. -/
def run_create_tables (ti : List (String × TableInfo)) (ex : MigStmt → Bool) : RunResult :=
  let r := run_phase1 ex (create_stmts ti)
  if r.2 then ⟨r.1 ++ unique_constraint_stmts ti ++ fk_stmts_all ti, true⟩
  else ⟨r.1, false⟩

/-- The tables that exist after the run: each successfully executed
`CREATE TABLE` persists immediately, because MariaDB implicitly commits
every DDL statement — a later raise cannot undo it and the source has no
rollback path. -/
def created_tables (ti : List (String × TableInfo)) (ex : MigStmt → Bool) : List String :=
  (run_create_tables ti ex).attempted.filterMap (fun st =>
    match st with
    | .create info => if ex (.create info) then some info.name else none
    | _ => none)

/-! ## Spec-side formulation for claim C3 -/

/-- The ordered integer-type ladder of section 4.2 of the spec, each type
with the range it covers.  The ranges are nested, so the first type whose
range covers the observed minimum and maximum is the smallest covering
type. -/
def int_type_ladder : List (String × Int × Int) :=
  [("TINYINT", -128, 127), ("SMALLINT", -32768, 32767),
   ("INT", -2147483648, 2147483647)]

/-- Written from the spec's words: the smallest of TINYINT / SMALLINT /
INT / BIGINT whose range covers `[lo, hi]` (BIGINT covers everything the
source can see, as pandas integer columns are int64). -/
def spec_smallest_int_type (lo hi : Int) : String :=
  ((int_type_ladder.find? (fun p => decide (p.2.1 ≤ lo ∧ hi ≤ p.2.2))).map Prod.fst).getD
    "BIGINT"

/-! ## Witness inputs -/

def students_sid : Series :=
  [some (.intV 1), some (.intV 2), some (.intV 3), some (.intV 4), some (.intV 5)]

def enroll_sid : Series := [some (.intV 1), some (.intV 2), some (.intV 2)]

def studentsTable : Table :=
  { nrows := 5
    cols := [⟨"student_id", students_sid⟩,
             ⟨"sname", [some (.strV "a"), some (.strV "b"), some (.strV "c"),
                        some (.strV "d"), some (.strV "e")]⟩] }

def enrollTable : Table :=
  { nrows := 3
    cols := [⟨"student_id", enroll_sid⟩,
             ⟨"course", [some (.strV "x"), some (.strV "y"), some (.strV "z")]⟩] }

def demoSheets : Sheets := [("students", studentsTable), ("enrollments", enrollTable)]

/-- Two target tables both containing the source values: exercises the
first-match rule of claim C2. -/
def alphaTable : Table :=
  { nrows := 2, cols := [⟨"ref_id", [some (.intV 1), some (.intV 2)]⟩] }

def betaTable : Table :=
  { nrows := 2, cols := [⟨"ref_id", [some (.intV 1), some (.intV 2)]⟩] }

def srcTable : Table :=
  { nrows := 2, cols := [⟨"ref_id", [some (.intV 1), some (.intV 1)]⟩] }

def demo2Sheets : Sheets := [("alpha", alphaTable), ("beta", betaTable), ("src", srcTable)]

def infoStudents : TableInfo :=
  { name := "students"
    columns := [{ name := "sid", data_type := "INT", is_nullable := false }]
    primary_key := none }

def infoEnroll : TableInfo :=
  { name := "enroll"
    columns := [{ name := "sid", data_type := "INT", is_foreign_key := true,
                  references_table := some "students",
                  references_column := some "sid" }]
    primary_key := none }

def demoTI : List (String × TableInfo) := [("students", infoStudents), ("enroll", infoEnroll)]

/-- Oracle that fails exactly the CREATE of `infoEnroll`. -/
def exFailEnroll : MigStmt → Bool := fun st => !(st == .create infoEnroll)

/-- The analysis result of the demo workbook (used by witnesses). -/
def demoInfos : List (String × TableInfo) := (analyze_structure demoSheets).toOption.getD []

/-- Referential well-formedness of a `table_info` dict, which
`analyze_structure` guarantees for its output: table names are distinct
(dict keys), and every recorded foreign key points at an existing table
and an existing column of that table. -/
def ti_wellformed (ti : List (String × TableInfo)) : Bool :=
  decide ((ti.map Prod.fst).Nodup) &&
  ti.all (fun p => p.2.columns.all (fun c =>
    !(c.is_foreign_key && ref_truthy c.references_table && ref_truthy c.references_column) ||
    ti.any (fun q => (some q.1 == c.references_table) &&
      q.2.columns.any (fun r => some r.name == c.references_column))))

/-! ## Helper lemmas -/

theorem mem_nonNull {s : Series} {x : Cell} : x ∈ nonNull s ↔ some x ∈ s := by
  simp [nonNull, List.mem_filterMap]

theorem nonNull_cons_some (x : Cell) (s : Series) :
    nonNull (some x :: s) = x :: nonNull s := by
  simp [nonNull]

theorem spec_smallest_int_type_eq (lo hi : Int) :
    spec_smallest_int_type lo hi =
      if -128 ≤ lo ∧ hi ≤ 127 then "TINYINT"
      else if -32768 ≤ lo ∧ hi ≤ 32767 then "SMALLINT"
      else if -2147483648 ≤ lo ∧ hi ≤ 2147483647 then "INT"
      else "BIGINT" := by
  by_cases h1 : -128 ≤ lo ∧ hi ≤ 127
  · rw [if_pos h1]
    simp only [spec_smallest_int_type, int_type_ladder, List.find?_cons, decide_eq_true h1]
    rfl
  · rw [if_neg h1]
    by_cases h2 : -32768 ≤ lo ∧ hi ≤ 32767
    · rw [if_pos h2]
      simp only [spec_smallest_int_type, int_type_ladder, List.find?_cons,
        decide_eq_false h1, decide_eq_true h2]
      rfl
    · rw [if_neg h2]
      by_cases h3 : -2147483648 ≤ lo ∧ hi ≤ 2147483647
      · rw [if_pos h3]
        simp only [spec_smallest_int_type, int_type_ladder, List.find?_cons,
          decide_eq_false h1, decide_eq_false h2, decide_eq_true h3]
        rfl
      · rw [if_neg h3]
        simp only [spec_smallest_int_type, int_type_ladder, List.find?_cons, List.find?_nil,
          decide_eq_false h1, decide_eq_false h2, decide_eq_false h3]
        rfl

/-! ## Claim theorems -/

/-- C3: for every column all of whose values are integral numbers, the
inferred type is the smallest of TINYINT, SMALLINT, INT, BIGINT whose
range covers the observed minimum and maximum. -/
theorem integer_column_gets_smallest_type (s : Series)
    (hall : ∀ c ∈ s, ∃ n : Int, c = some (.intV n)) (hne : s ≠ []) :
    infer_data_type s =
      (spec_smallest_int_type (int_min (s.filterMap cellInt?))
        (int_max (s.filterMap cellInt?)), none) := by
  have hSome : s.all (·.isSome) = true := by
    rw [List.all_eq_true]
    intro c hc
    obtain ⟨n, rfl⟩ := hall c hc
    rfl
  have hInt : (nonNull s).all Cell.isIntCell = true := by
    rw [List.all_eq_true]
    intro x hx
    rw [mem_nonNull] at hx
    obtain ⟨n, h⟩ := hall _ hx
    cases Option.some.inj h
    rfl
  have hdty : series_dtype s = Dtype.int64 := by
    rw [series_dtype, if_neg, if_pos]
    · simp [hSome, hInt]
    · simp [List.isEmpty_iff, hne]
  have hnn : (nonNull s).isEmpty = false := by
    obtain ⟨c, rest, rfl⟩ := List.exists_cons_of_ne_nil hne
    obtain ⟨n, rfl⟩ := hall c (List.mem_cons_self c rest)
    simp [nonNull_cons_some]
  rw [infer_data_type, spec_smallest_int_type_eq]
  simp only [hnn, hdty, Bool.false_eq_true, if_false, if_pos rfl]
  split_ifs <;> rfl

/-- Witness for C3: the column with values {1, 2, 3} infers TINYINT. -/
theorem integer_column_gets_smallest_type_witness :
    infer_data_type [some (.intV 1), some (.intV 2), some (.intV 3)] = ("TINYINT", none) := by
  have h := integer_column_gets_smallest_type
    [some (.intV 1), some (.intV 2), some (.intV 3)]
    (by intro c hc
        simp only [List.mem_cons, List.not_mem_nil, or_false] at hc
        rcases hc with rfl | rfl | rfl
        · exact ⟨1, rfl⟩
        · exact ⟨2, rfl⟩
        · exact ⟨3, rfl⟩)
    (by simp)
  rw [h]
  decide

/-- C10: a column whose non-null values are all integers but which has at
least one missing value is stored as float64 by pandas (nullable integers
are promoted to floating point), so `_infer_data_type` returns
DECIMAL(10,2), not an integer type. -/
theorem nullable_integer_column_gets_decimal (s : Series)
    (hall : ∀ c ∈ s, c = none ∨ ∃ n : Int, c = some (.intV n))
    (hnull : none ∈ s) (hval : ∃ c ∈ s, c ≠ none) :
    infer_data_type s = ("DECIMAL(10,2)", none) := by
  have hne : s ≠ [] := by
    intro h
    rw [h] at hnull
    exact absurd hnull (List.not_mem_nil none)
  have hNum : (nonNull s).all Cell.isNumCell = true := by
    rw [List.all_eq_true]
    intro x hx
    rw [mem_nonNull] at hx
    rcases hall _ hx with h | ⟨n, h⟩
    · exact absurd h (by simp)
    · cases Option.some.inj h
      rfl
  have hAny : s.any (·.isNone) = true := by
    rw [List.any_eq_true]
    exact ⟨none, hnull, rfl⟩
  have hNotAll : s.all (·.isSome) = false := by
    rw [Bool.eq_false_iff]
    intro h
    rw [List.all_eq_true] at h
    exact absurd (h none hnull) (by simp)
  have hdty : series_dtype s = Dtype.float64 := by
    rw [series_dtype, if_neg, if_neg, if_pos]
    · simp [hNum, hAny]
    · simp [hNotAll]
    · simp [List.isEmpty_iff, hne]
  have hnn : (nonNull s).isEmpty = false := by
    obtain ⟨c, hc, hcne⟩ := hval
    rcases hall c hc with h | ⟨n, h⟩
    · exact absurd h hcne
    · subst h
      rw [List.isEmpty_eq_false_iff_exists_mem]
      exact ⟨.intV n, mem_nonNull.mpr hc⟩
  rw [infer_data_type]
  simp [hnn, hdty]

/-- Witness for C10: an integer column with one missing cell. -/
theorem nullable_integer_column_gets_decimal_witness :
    infer_data_type [some (.intV 1), none, some (.intV 3)] = ("DECIMAL(10,2)", none) :=
  nullable_integer_column_gets_decimal [some (.intV 1), none, some (.intV 3)]
    (by intro c hc
        simp only [List.mem_cons, List.not_mem_nil, or_false] at hc
        rcases hc with rfl | rfl | rfl
        · exact Or.inr ⟨1, rfl⟩
        · exact Or.inl rfl
        · exact Or.inr ⟨3, rfl⟩)
    (by simp)
    ⟨some (.intV 1), by simp, by simp⟩

/-- Counterexample to C8 as stated: a blank (but present) column name is
cleaned to "_", not to the placeholder "unnamed_column" — only a missing
(NaN) name receives the placeholder. -/
theorem blank_name_not_placeholder :
    clean_column_name (some " ") = .ok "_" ∧ ("_" : String) ≠ "unnamed_column" := by
  constructor
  · rfl
  · decide

/-- C8 (amended): a missing (NaN) column name is replaced by the fixed
placeholder "unnamed_column"; a blank-but-present name is cleaned to
underscores (and an empty name raises); every cleaned column name the
function returns is non-empty. -/
theorem clean_column_name_missing_and_nonempty :
    clean_column_name none = .ok "unnamed_column" ∧
    ∀ o r, clean_column_name o = .ok r → r ≠ "" := by
  refine ⟨rfl, ?_⟩
  intro o r h
  match o with
  | none =>
    rw [clean_column_name] at h
    cases h
    decide
  | some s =>
    rw [clean_column_name] at h
    rcases hc : s.data.map (fun c => if keepChar c then c else '_') with _ | ⟨c0, rest⟩
    · rw [hc] at h
      exact absurd h (by simp)
    · rw [hc] at h
      simp only [Except.ok.injEq] at h
      subst h
      intro hemp
      rw [String.ext_iff] at hemp
      by_cases hd : c0.isDigit <;> simp [hd] at hemp

/-- Witness for the amended C8. -/
theorem clean_column_name_missing_and_nonempty_witness :
    clean_column_name (some "9abc") = .ok "col_9abc" ∧ ("col_9abc" : String) ≠ "" :=
  ⟨by rfl, clean_column_name_missing_and_nonempty.2 (some "9abc") "col_9abc" (by rfl)⟩

/-- C1: with both columns holding at least one non-null value,
`_check_potential_relationship` flags `(c1 → T2.c2)` iff the set of
string-rendered non-null values of `c1` is a subset of those of `c2`, or
the distinct-value overlap ratio exceeds 0.8 and one of the six naming
heuristics of `_names_suggest_relationship` matches.  (In the enumeration
of `_detect_foreign_keys` this test is applied exactly to the columns `c1`
of `T1` and the unique columns `c2` of `T2`, for distinct tables.) -/
theorem relationship_flagged_iff (s1 s2 : Series) (c1 c2 t : String)
    (h1 : nonNull s1 ≠ []) (h2 : nonNull s2 ≠ []) :
    check_potential_relationship s1 s2 c1 c2 t = true ↔
      (((nonNull s1).map (render_cell (series_dtype s1))).toFinset ⊆
          ((nonNull s2).map (render_cell (series_dtype s2))).toFinset ∨
        (5 * (((nonNull s1).map (render_cell (series_dtype s1))).toFinset ∩
              ((nonNull s2).map (render_cell (series_dtype s2))).toFinset).card >
            4 * (((nonNull s1).map (render_cell (series_dtype s1))).toFinset).card ∧
          names_suggest_relationship c1 c2 t = true)) := by
  have e1 : (nonNull s1).isEmpty = false := by simp [List.isEmpty_iff, h1]
  have e2 : (nonNull s2).isEmpty = false := by simp [List.isEmpty_iff, h2]
  rw [check_potential_relationship]
  simp [e1, e2]

/-- Witness for C1: `Enrollments.student_id` (values ⊆ {1..5}) against the
unique, non-null `Students.student_id` (values 1..5) is flagged, via the
subset disjunct; and the triple is recorded by the enumeration of
`_detect_foreign_keys` for the `enrollments` table. -/
theorem relationship_flagged_iff_witness :
    check_potential_relationship enroll_sid students_sid
        "student_id" "student_id" "students" = true ∧
      ("student_id", "students", "student_id") ∈
        relationships_for_table demoSheets 1 enrollTable :=
  ⟨(relationship_flagged_iff enroll_sid students_sid "student_id" "student_id" "students"
      (by decide) (by decide)).mpr (Or.inl (by decide)),
   by decide⟩

/-- C4: a column is a primary-key candidate iff its distinct-value count
equals the row count and it has no missing value; the detected primary key
is the first candidate (in column order) whose name contains "id"
case-insensitively, otherwise the first candidate, and `none` when no
column qualifies.  The `Nodup` hypothesis records that the Python only
reaches this computation on tables whose (cleaned) column names are
distinct — with a duplicated name, `df[col]` returns a DataFrame and the
uniqueness test raises. -/
theorem detect_primary_key_spec (t : Table)
    (_hnd : (t.cols.map SeriesCol.name).Nodup) :
    (∀ c ∈ t.cols, (is_unique_col t c = true ↔
        ((nonNull c.values).toFinset.card = t.nrows ∧ ∀ v ∈ c.values, v ≠ none))) ∧
    detect_primary_key t =
      (match (t.cols.filter (is_unique_col t)).find?
          (fun c => str_contains (str_lower c.name) "id") with
       | some c => some c.name
       | none => ((t.cols.filter (is_unique_col t)).head?).map (fun c => c.name)) := by
  constructor
  · intro c _
    rw [is_unique_col, Bool.and_eq_true, List.card_toFinset]
    constructor
    · rintro ⟨hlen, hall⟩
      refine ⟨by simpa using hlen, ?_⟩
      intro v hv
      rw [List.all_eq_true] at hall
      have := hall v hv
      simp only [Option.isSome_iff_ne_none] at this
      exact this
    · rintro ⟨hlen, hall⟩
      refine ⟨by simpa using hlen, ?_⟩
      rw [List.all_eq_true]
      intro v hv
      simpa [Option.isSome_iff_ne_none] using hall v hv
  · rw [detect_primary_key, List.find?_filter, List.filter_head?]
    have hpred : (fun a => decide (is_unique_col t a = true ∧
          str_contains (str_lower a.name) "id" = true))
        = (fun c => is_unique_col t c && str_contains (str_lower c.name) "id") := by
      funext a
      cases h1 : is_unique_col t a <;>
        cases h2 : str_contains (str_lower a.name) "id" <;> simp [h1, h2]
    rw [hpred]

/-- Witness for C4 at the demo `students` table: `student_id` (unique,
non-null, name contains "id") is detected. -/
theorem detect_primary_key_spec_witness :
    detect_primary_key studentsTable =
      (match (studentsTable.cols.filter (is_unique_col studentsTable)).find?
          (fun c => str_contains (str_lower c.name) "id") with
       | some c => some c.name
       | none => ((studentsTable.cols.filter (is_unique_col studentsTable)).head?).map
           (fun c => c.name)) :=
  (detect_primary_key_spec studentsTable (by decide)).2

theorem analyze_structure_ok {sheets : Sheets} {infos : List (String × TableInfo)}
    (h : analyze_structure sheets = .ok infos) :
    (∀ p ∈ sheets, ((p.2.cols.map SeriesCol.name)).Nodup) ∧
      infos = sheets.enum.map (build_table_entry sheets) := by
  rw [analyze_structure] at h
  by_cases hemp : sheets.isEmpty = true
  · rw [if_pos hemp] at h
    exact absurd h (by simp)
  · rw [if_neg hemp] at h
    by_cases hdup : (sheets.any
        (fun p => !(decide ((p.2.cols.map SeriesCol.name)).Nodup))) = true
    · rw [if_pos hdup] at h
      exact absurd h (by simp)
    · rw [if_neg hdup] at h
      refine ⟨?_, (Except.ok.inj h).symm⟩
      intro p hp
      have hdup' : sheets.any
          (fun p => !(decide ((p.2.cols.map SeriesCol.name)).Nodup)) = false :=
        Bool.eq_false_iff.mpr hdup
      rw [List.any_eq_false] at hdup'
      have := hdup' p hp
      simpa using this

theorem filter_name_length_le_one (cols : List SeriesCol) (nm : String)
    (hnd : (cols.map SeriesCol.name).Nodup) :
    (cols.filter (fun c => nm == c.name)).length ≤ 1 := by
  induction cols with
  | nil => simp
  | cons c rest ih =>
    rw [List.map_cons, List.nodup_cons] at hnd
    obtain ⟨hn, hrest⟩ := hnd
    rw [List.filter_cons]
    cases hb : (nm == c.name) with
    | false => simpa using ih hrest
    | true =>
      have hnm : nm = c.name := by simpa using hb
      have hnil : rest.filter (fun r => nm == r.name) = [] := by
        rw [List.filter_eq_nil_iff]
        intro r hr hpred
        have hr' : nm = r.name := by simpa using hpred
        exact hn (hnm ▸ hr' ▸ List.mem_map_of_mem SeriesCol.name hr)
      simp [hnil]

/-- C9: every `TableInfo` produced by `analyze_structure` has at most one
column with `is_primary_key = true`.  When distinct raw column names clean
to the same name, the analysis raises before building any `TableInfo`
(see `analyze_structure`), so the produced tables always have distinct
column names and the primary-key name matches at most one column. -/
theorem at_most_one_primary_key (sheets : Sheets) (infos : List (String × TableInfo))
    (h : analyze_structure sheets = .ok infos) :
    ∀ p ∈ infos, (p.2.columns.filter (fun c => c.is_primary_key)).length ≤ 1 := by
  obtain ⟨hnd, rfl⟩ := analyze_structure_ok h
  intro p hp
  rw [List.mem_map] at hp
  obtain ⟨q, hq, rfl⟩ := hp
  have hqs : q.2 ∈ sheets := by
    have := List.mem_enum_iff_getElem?.mp hq
    exact List.getElem?_mem this
  have hnd' := hnd q.2 hqs
  simp only [build_table_entry, List.filter_map, List.length_map]
  cases hpk : detect_primary_key q.2.2 with
  | none =>
    have : ((fun c : ColumnInfo => c.is_primary_key) ∘
        build_column none (relationships_for_table sheets q.1 q.2.2)) = fun _ => false := by
      funext c
      simp [build_column]
    rw [this]
    simp
  | some nm =>
    have : ((fun c : ColumnInfo => c.is_primary_key) ∘
        build_column (some nm) (relationships_for_table sheets q.1 q.2.2)) =
        fun c => nm == c.name := by
      funext c
      simp [build_column]
    rw [this]
    exact filter_name_length_le_one q.2.2.cols nm hnd'

/-- Witness for C9 at the demo workbook. -/
theorem at_most_one_primary_key_witness :
    ((demoInfos.headD ("", { name := "", columns := [] })).2.columns.filter
      (fun c => c.is_primary_key)).length ≤ 1 :=
  at_most_one_primary_key demoSheets demoInfos rfl
    (demoInfos.headD ("", { name := "", columns := [] })) (by decide)

theorem find?_const_true {α : Type} (l : List α) : l.find? (fun _ => true) = l.head? := by
  cases l <;> simp [List.find?]

theorem find?_tagged_none (cols : List SeriesCol)
    (g : SeriesCol → List (String × String)) (nm : String)
    (h : ∀ c1 ∈ cols, c1.name ≠ nm) :
    (cols.flatMap (fun c1 => (g c1).map (fun q => (c1.name, q.1, q.2)))).find?
        (fun r => r.1 == nm) = none := by
  rw [List.find?_eq_none]
  intro x hx
  rw [List.mem_flatMap] at hx
  obtain ⟨c1, hc1, hx⟩ := hx
  rw [List.mem_map] at hx
  obtain ⟨q, _, rfl⟩ := hx
  simp [h c1 hc1]

theorem find?_tagged_block (cols : List SeriesCol)
    (g : SeriesCol → List (String × String)) (c : SeriesCol)
    (hc : c ∈ cols) (hnd : (cols.map SeriesCol.name).Nodup) :
    (cols.flatMap (fun c1 => (g c1).map (fun q => (c1.name, q.1, q.2)))).find?
        (fun r => r.1 == c.name)
      = ((g c).head?).map (fun q => (c.name, q.1, q.2)) := by
  induction cols with
  | nil => exact absurd hc (List.not_mem_nil c)
  | cons c1 rest ih =>
    rw [List.map_cons, List.nodup_cons] at hnd
    obtain ⟨hn, hrest⟩ := hnd
    rw [List.flatMap_cons, List.find?_append]
    rcases List.mem_cons.mp hc with rfl | hcr
    · have hhead : ((g c).map (fun q => (c.name, q.1, q.2))).find? (fun r => r.1 == c.name)
          = ((g c).head?).map (fun q => (c.name, q.1, q.2)) := by
        rw [List.find?_map]
        have hp : ((fun r : String × String × String => r.1 == c.name) ∘
            (fun q : String × String => (c.name, q.1, q.2))) = fun _ => true := by
          funext q
          simp [Function.comp]
        rw [hp, find?_const_true]
      rw [hhead]
      cases hg : (g c).head? with
      | some q => simp
      | none =>
        have hnone : (rest.flatMap
            (fun c1 => (g c1).map (fun q => (c1.name, q.1, q.2)))).find?
            (fun r => r.1 == c.name) = none := by
          apply find?_tagged_none
          intro c2 hc2 heq
          exact hn (heq ▸ List.mem_map_of_mem SeriesCol.name hc2)
        simp [hnone]
    · have hne : c1.name ≠ c.name := by
        intro he
        exact hn (he ▸ List.mem_map_of_mem SeriesCol.name hcr)
      have hfst : ((g c1).map (fun q => (c1.name, q.1, q.2))).find?
          (fun r => r.1 == c.name) = none := by
        rw [List.find?_eq_none]
        intro x hx
        rw [List.mem_map] at hx
        obtain ⟨q, _, rfl⟩ := hx
        simp [hne]
      rw [hfst, Option.none_or]
      exact ih hcr hrest

theorem find?_rels_generic (L : List (Nat × String × Table)) (i : Nat) (t1 : Table)
    (c : SeriesCol) (hc : c ∈ t1.cols) (hnd : (t1.cols.map SeriesCol.name).Nodup) :
    (L.flatMap (fun p =>
        if p.1 = i then []
        else t1.cols.flatMap (fun c1 =>
          (col_targets p.2.1 p.2.2 c1).map (fun q => (c1.name, q.1, q.2))))).find?
        (fun r => r.1 == c.name)
      = ((L.flatMap (fun p =>
          if p.1 = i then [] else col_targets p.2.1 p.2.2 c)).head?).map
          (fun q => (c.name, q.1, q.2)) := by
  induction L with
  | nil => simp
  | cons p L' ih =>
    rw [List.flatMap_cons, List.flatMap_cons, List.find?_append, List.head?_append]
    by_cases hp : p.1 = i
    · simp only [if_pos hp, List.find?_nil, Option.none_or, List.head?_nil]
      exact ih
    · simp only [if_neg hp]
      rw [find?_tagged_block t1.cols (col_targets p.2.1 p.2.2) c hc hnd]
      cases hg : (col_targets p.2.1 p.2.2 c).head? with
      | some q => simp
      | none => simpa using ih

theorem column_fk_eq_candidate_head (sheets : Sheets) (i : Nat) (t1 : Table)
    (c : SeriesCol) (hc : c ∈ t1.cols) (hnd : (t1.cols.map SeriesCol.name).Nodup) :
    column_fk (relationships_for_table sheets i t1) c.name
      = (candidate_targets sheets i c).head? := by
  rw [column_fk, relationships_for_table, candidate_targets,
    find?_rels_generic sheets.enum i t1 c hc hnd]
  cases (sheets.enum.flatMap
      (fun p => if p.1 = i then [] else col_targets p.2.1 p.2.2 c)).head? with
  | none => rfl
  | some q => rfl

/-- C2: in the analysis result, every source column carries at most one
foreign key, and when several `(T2, c2)` pairs satisfy the relationship
test for a column, the recorded one is the first in the enumeration order
of `_detect_foreign_keys`: target tables in workbook sheet order (skipping
the source table itself), then target columns in column order
(`candidate_targets` lists exactly the satisfying pairs in that order, and
the recorded reference is its head). -/
theorem fk_records_first_candidate (sheets : Sheets) (infos : List (String × TableInfo))
    (i k : Nat) (n1 : String) (t1 : Table) (c : SeriesCol)
    (h : analyze_structure sheets = .ok infos)
    (hi : sheets[i]? = some (n1, t1)) (hk : t1.cols[k]? = some c) :
    ∃ info : TableInfo, infos[i]? = some (n1, info) ∧
      ∃ ci : ColumnInfo, info.columns[k]? = some ci ∧
        ci.is_foreign_key = (candidate_targets sheets i c).head?.isSome ∧
        ci.references_table = ((candidate_targets sheets i c).head?).map Prod.fst ∧
        ci.references_column = ((candidate_targets sheets i c).head?).map Prod.snd := by
  obtain ⟨hnd, rfl⟩ := analyze_structure_ok h
  have hct := column_fk_eq_candidate_head sheets i t1 c (List.getElem?_mem hk)
    (hnd (n1, t1) (List.getElem?_mem hi))
  have henum : sheets.enum[i]? = some (i, (n1, t1)) := by
    rw [List.getElem?_enum, hi]
    rfl
  refine ⟨(build_table_entry sheets (i, (n1, t1))).2, ?_,
    build_column (detect_primary_key t1) (relationships_for_table sheets i t1) c,
    ?_, ?_, ?_, ?_⟩
  · rw [List.getElem?_map, henum]
    rfl
  · show ((build_table_entry sheets (i, (n1, t1))).2.columns)[k]? = _
    simp only [build_table_entry]
    rw [List.getElem?_map, hk]
    rfl
  · show (column_fk (relationships_for_table sheets i t1) c.name).isSome = _
    rw [hct]
  · show (column_fk (relationships_for_table sheets i t1) c.name).map Prod.fst = _
    rw [hct]
  · show (column_fk (relationships_for_table sheets i t1) c.name).map Prod.snd = _
    rw [hct]

/-- Witness for C2: in `demo2Sheets` the source column `src.ref_id`
satisfies the test against both `alpha.ref_id` and `beta.ref_id`; the
recorded foreign key is the first, `alpha.ref_id`. -/
theorem fk_records_first_candidate_witness :
    (∃ info : TableInfo,
        ((analyze_structure demo2Sheets).toOption.getD [])[2]? = some ("src", info) ∧
      ∃ ci : ColumnInfo, info.columns[0]? = some ci ∧
        ci.is_foreign_key =
          (candidate_targets demo2Sheets 2 ⟨"ref_id", [some (.intV 1), some (.intV 1)]⟩).head?.isSome ∧
        ci.references_table =
          ((candidate_targets demo2Sheets 2 ⟨"ref_id", [some (.intV 1), some (.intV 1)]⟩).head?).map Prod.fst ∧
        ci.references_column =
          ((candidate_targets demo2Sheets 2 ⟨"ref_id", [some (.intV 1), some (.intV 1)]⟩).head?).map Prod.snd) ∧
      candidate_targets demo2Sheets 2 ⟨"ref_id", [some (.intV 1), some (.intV 1)]⟩
        = [("alpha", "ref_id"), ("beta", "ref_id")] :=
  ⟨fk_records_first_candidate demo2Sheets ((analyze_structure demo2Sheets).toOption.getD [])
      2 0 "src" srcTable ⟨"ref_id", [some (.intV 1), some (.intV 1)]⟩ rfl rfl rfl,
    by decide⟩

theorem run_phase1_all_true (ex : MigStmt → Bool) (l : List MigStmt)
    (h : ∀ st ∈ l, ex st = true) : run_phase1 ex l = (l, true) := by
  induction l with
  | nil => rfl
  | cons a rest ih =>
    rw [run_phase1, if_pos (h a (List.mem_cons_self a rest))]
    rw [ih (fun st hst => h st (List.mem_cons_of_mem a hst))]

theorem run_phase1_first_failure (ex : MigStmt → Bool) (l : List MigStmt) (k : Nat)
    (st : MigStmt) (hk : l[k]? = some st) (hst : ex st = false)
    (hpre : ∀ m stm, m < k → l[m]? = some stm → ex stm = true) :
    run_phase1 ex l = (l.take (k + 1), false) := by
  induction l generalizing k with
  | nil => exact absurd hk (by simp)
  | cons a rest ih =>
    cases k with
    | zero =>
      have hast : a = st := by simpa using hk
      subst hast
      rw [run_phase1, if_neg (by simp [hst])]
      rfl
    | succ k' =>
      have ha : ex a = true := hpre 0 a (Nat.succ_pos k') (by simp)
      rw [run_phase1, if_pos ha,
        ih k' (by simpa using hk) (fun m stm hm h' =>
          hpre (m + 1) stm (Nat.succ_lt_succ hm) (by simpa using h'))]
      rfl

/-- C6: a failing CREATE in phase 1 aborts the whole `create_tables` call —
everything attempted is a prefix of the CREATE statements, so no
unique-constraint or foreign-key statement is ever attempted; whereas if
every CREATE succeeds, every phase-2 and phase-3 statement is attempted
(their own failures are caught and only logged), and the emitted sequence
is the full `sql_statements` list. -/
theorem phase1_fatal_phase23_recoverable (ti : List (String × TableInfo))
    (ex : MigStmt → Bool) :
    ((∀ st ∈ create_stmts ti, ex st = true) →
      (run_create_tables ti ex).attempted = mig_statements ti ∧
        (run_create_tables ti ex).ok = true) ∧
    (∀ k st, (create_stmts ti)[k]? = some st → ex st = false →
      (∀ m stm, m < k → (create_stmts ti)[m]? = some stm → ex stm = true) →
      (run_create_tables ti ex).attempted = (create_stmts ti).take (k + 1) ∧
        (run_create_tables ti ex).ok = false ∧
        ∀ st' ∈ (run_create_tables ti ex).attempted, ∃ info, st' = MigStmt.create info) := by
  constructor
  · intro hall
    rw [run_create_tables, run_phase1_all_true ex _ hall]
    exact ⟨rfl, rfl⟩
  · intro k st hk hst hpre
    rw [run_create_tables, run_phase1_first_failure ex _ k st hk hst hpre]
    refine ⟨rfl, rfl, ?_⟩
    intro st' hst'
    have : st' ∈ create_stmts ti := List.mem_of_mem_take hst'
    rw [create_stmts, List.mem_map] at this
    obtain ⟨p, _, rfl⟩ := this
    exact ⟨p.2, rfl⟩

/-- Witness for C6: on `demoTI` with an oracle failing the second CREATE,
the attempted trace is the two CREATEs and nothing of phases 2–3. -/
theorem phase1_fatal_phase23_recoverable_witness :
    (run_create_tables demoTI exFailEnroll).attempted = (create_stmts demoTI).take 2 ∧
      (run_create_tables demoTI exFailEnroll).ok = false ∧
      ∀ st' ∈ (run_create_tables demoTI exFailEnroll).attempted,
        ∃ info, st' = MigStmt.create info :=
  (phase1_fatal_phase23_recoverable demoTI exFailEnroll).2 1 (.create infoEnroll)
    (by decide) (by decide)
    (by
      intro m stm hm hsm
      have hm0 : m = 0 := Nat.lt_one_iff.mp hm
      subst hm0
      cases Option.some.inj hsm
      decide)

/-- Counterexample to C7 as stated: with two tables and the second CREATE
failing, the run aborts in phase 1 yet the first table was already created
(MariaDB auto-commits DDL), a strict non-empty subset of the tables. -/
theorem phase1_failure_leaves_strict_subset :
    (run_create_tables demoTI exFailEnroll).ok = false ∧
      created_tables demoTI exFailEnroll = ["students"] ∧
      demoTI.map Prod.fst = ["students", "enroll"] := by
  decide

theorem created_tables_of_prefix (ex : MigStmt → Bool)
    (ti : List (String × TableInfo)) (k : Nat)
    (hpre : ∀ m stm, m < k → (create_stmts ti)[m]? = some stm → ex stm = true)
    (hk : ∃ st, (create_stmts ti)[k]? = some st ∧ ex st = false) :
    ((create_stmts ti).take (k + 1)).filterMap (fun st =>
        match st with
        | .create info => if ex (.create info) then some info.name else none
        | _ => none)
      = (ti.map (fun p => p.2.name)).take k := by
  induction ti generalizing k with
  | nil =>
    obtain ⟨st, hst, _⟩ := hk
    exact absurd hst (by simp [create_stmts])
  | cons p rest ih =>
    cases k with
    | zero =>
      obtain ⟨st, hst, hex⟩ := hk
      have hste : MigStmt.create p.2 = st := by
        have h0 : (create_stmts (p :: rest))[0]? = some (MigStmt.create p.2) := by
          simp [create_stmts]
        rw [h0] at hst
        exact Option.some.inj hst
      subst hste
      show ((MigStmt.create p.2 :: create_stmts rest).take 1).filterMap _ = _
      simp [hex]
    | succ k' =>
      have ha : ex (MigStmt.create p.2) = true :=
        hpre 0 (MigStmt.create p.2) (Nat.succ_pos k') (by simp [create_stmts])
      have ihr := ih k'
        (fun m stm hm h' =>
          hpre (m + 1) stm (Nat.succ_lt_succ hm) (by simpa [create_stmts] using h'))
        (by
          obtain ⟨st, hst, hex⟩ := hk
          exact ⟨st, by simpa [create_stmts] using hst, hex⟩)
      show ((MigStmt.create p.2 :: create_stmts rest).take (k' + 1 + 1)).filterMap _
          = ((p.2.name :: rest.map (fun p => p.2.name)).take (k' + 1))
      rw [List.take_succ_cons, List.filterMap_cons, List.take_succ_cons]
      simp only [ha, if_true]
      rw [ihr]

theorem run_phase1_false (ex : MigStmt → Bool) (l : List MigStmt)
    (h : (run_phase1 ex l).2 = false) :
    ∃ k, k < l.length ∧ (run_phase1 ex l).1 = l.take (k + 1) ∧
      (∀ m stm, m < k → l[m]? = some stm → ex stm = true) ∧
      ∃ st, l[k]? = some st ∧ ex st = false := by
  induction l with
  | nil => simp [run_phase1] at h
  | cons a rest ih =>
    by_cases ha : ex a = true
    · have hps : run_phase1 ex (a :: rest)
          = (a :: (run_phase1 ex rest).1, (run_phase1 ex rest).2) := by
        rw [run_phase1, if_pos ha]
      rw [hps] at h ⊢
      obtain ⟨k, hk, htr, hpre, st, hst, hex⟩ := ih h
      refine ⟨k + 1, Nat.succ_lt_succ hk, ?_, ?_, st, by simpa using hst, hex⟩
      · rw [List.take_succ_cons]
        simpa using htr
      · intro m stm hm h'
        cases m with
        | zero =>
          have : a = stm := by simpa using h'
          exact this ▸ ha
        | succ m' =>
          exact hpre m' stm (Nat.lt_of_succ_lt_succ hm) (by simpa using h')
    · have hps : run_phase1 ex (a :: rest) = ([a], false) := by
        rw [run_phase1, if_neg ha]
      rw [hps]
      exact ⟨0, Nat.succ_pos _, rfl, fun m _ hm => absurd hm (Nat.not_lt_zero m),
        a, by simp, Bool.eq_false_iff.mpr ha⟩

/-- C7 (amended): a phase-1 failure aborts the run before any constraint
statement is attempted (and before any data is inserted), but the tables
whose CREATE statements already executed successfully remain created —
MariaDB DDL auto-commits and the source has no rollback — so the set of
created tables is the prefix of the enumeration up to the failing
statement, which can be a strict non-empty subset of the tables. -/
theorem phase1_failure_creates_prefix (ti : List (String × TableInfo))
    (ex : MigStmt → Bool) (hfail : (run_create_tables ti ex).ok = false) :
    ∃ k, k < ti.length ∧
      (run_create_tables ti ex).attempted = (create_stmts ti).take (k + 1) ∧
      created_tables ti ex = (ti.map (fun p => p.2.name)).take k ∧
      ∀ st ∈ (run_create_tables ti ex).attempted, ∃ info, st = MigStmt.create info := by
  have h2 : (run_phase1 ex (create_stmts ti)).2 = false := by
    by_cases hb : (run_phase1 ex (create_stmts ti)).2 = true
    · rw [run_create_tables, if_pos hb] at hfail
      exact absurd hfail (by simp)
    · exact Bool.eq_false_iff.mpr hb
  have hrc : run_create_tables ti ex = ⟨(run_phase1 ex (create_stmts ti)).1, false⟩ := by
    rw [run_create_tables, if_neg (by simp [h2])]
  obtain ⟨k, hk, htr, hpre, st, hst, hex⟩ := run_phase1_false ex (create_stmts ti) h2
  refine ⟨k, by simpa [create_stmts] using hk, ?_, ?_, ?_⟩
  · rw [hrc]
    exact htr
  · rw [created_tables, hrc]
    show (run_phase1 ex (create_stmts ti)).1.filterMap _ = _
    rw [htr]
    exact created_tables_of_prefix ex ti k hpre ⟨st, hst, hex⟩
  · intro st' hst'
    rw [hrc] at hst'
    have : st' ∈ create_stmts ti := List.mem_of_mem_take (htr ▸ hst')
    rw [create_stmts, List.mem_map] at this
    obtain ⟨p, _, rfl⟩ := this
    exact ⟨p.2, rfl⟩

/-- Witness for the amended C7 at the concrete failing run. -/
theorem phase1_failure_creates_prefix_witness :
    ∃ k, k < demoTI.length ∧
      (run_create_tables demoTI exFailEnroll).attempted
        = (create_stmts demoTI).take (k + 1) ∧
      created_tables demoTI exFailEnroll
        = (demoTI.map (fun p => p.2.name)).take k ∧
      ∀ st ∈ (run_create_tables demoTI exFailEnroll).attempted,
        ∃ info, st = MigStmt.create info :=
  phase1_failure_creates_prefix demoTI exFailEnroll (by decide)

theorem mem_dedup_keep_first (l : List (String × String)) (a : String × String)
    (seen : List (String × String)) (hal : a ∈ l) (hs : a ∉ seen) :
    a ∈ dedup_keep_first seen l := by
  induction l generalizing seen with
  | nil => exact absurd hal (List.not_mem_nil a)
  | cons p rest ih =>
    rw [dedup_keep_first]
    rcases List.mem_cons.mp hal with rfl | har
    · rw [if_neg hs]
      exact List.mem_cons_self _ _
    · by_cases hp : p ∈ seen
      · rw [if_pos hp]
        exact ih seen har hs
      · rw [if_neg hp]
        by_cases hap : a = p
        · exact hap ▸ List.mem_cons_self _ _
        · exact List.mem_cons_of_mem _ (ih (p :: seen) har (by simp [hs, hap]))

theorem ref_truthy_some {o : Option String} (h : ref_truthy o = true) :
    o = some (o.getD "") := by
  cases o with
  | none => exact absurd h (by simp [ref_truthy])
  | some s => rfl

/-- C5: in the emitted statement sequence of a migration run over a
well-formed `table_info` (which `analyze_structure` output is), every
foreign-key statement appears after the CREATE of the table it references,
and — whenever the referenced column is not that table's primary key —
after the unique-constraint statement for that referenced column. -/
theorem fk_after_create_and_unique (ti : List (String × TableInfo))
    (hwf : ti_wellformed ti = true) (k : Nat) (tn cn rt rc : String)
    (hk : (mig_statements ti)[k]? = some (.foreignKey tn cn rt rc)) :
    (∃ m, m < k ∧ ∃ q, q ∈ ti ∧ q.1 = rt ∧
        (mig_statements ti)[m]? = some (.create q.2)) ∧
    ((ti.all (fun q => !(q.1 == rt) ||
        q.2.columns.all (fun r => !(r.name == rc) || !r.is_primary_key)) = true) →
      ∃ m, m < k ∧ (mig_statements ti)[m]? = some (.uniqueKey rt rc)) := by
  rw [ti_wellformed, Bool.and_eq_true] at hwf
  obtain ⟨hndB, hrefs⟩ := hwf
  have hnd : (ti.map Prod.fst).Nodup := of_decide_eq_true hndB
  -- the foreign-key statement lives in the third segment
  rw [mig_statements, List.append_assoc] at hk
  have hkA : ¬ k < (create_stmts ti).length := by
    intro hlt
    rw [List.getElem?_append_left hlt] at hk
    have := List.getElem?_mem hk
    rw [create_stmts, List.mem_map] at this
    obtain ⟨p, _, hEq⟩ := this
    exact MigStmt.noConfusion hEq
  have hAle : (create_stmts ti).length ≤ k := Nat.le_of_not_lt hkA
  have hkBC : (unique_constraint_stmts ti ++ fk_stmts_all ti)[k - (create_stmts ti).length]?
      = some (.foreignKey tn cn rt rc) := by
    rw [List.getElem?_append_right hAle] at hk
    exact hk
  have hkB : ¬ k - (create_stmts ti).length < (unique_constraint_stmts ti).length := by
    intro hlt
    rw [List.getElem?_append_left hlt] at hkBC
    have := List.getElem?_mem hkBC
    rw [unique_constraint_stmts, List.mem_map] at this
    obtain ⟨p, _, hEq⟩ := this
    exact MigStmt.noConfusion hEq
  have hBle : (unique_constraint_stmts ti).length ≤ k - (create_stmts ti).length :=
    Nat.le_of_not_lt hkB
  have hmemC : MigStmt.foreignKey tn cn rt rc ∈ fk_stmts_all ti := by
    rw [List.getElem?_append_right hBle] at hkBC
    exact List.getElem?_mem hkBC
  -- recover the source column generating the statement
  rw [fk_stmts_all, List.mem_flatMap] at hmemC
  obtain ⟨p, hp, hf⟩ := hmemC
  rw [fk_stmts_for, List.mem_map] at hf
  obtain ⟨col, hcolF, hEq⟩ := hf
  have hcolM := hcolF
  rw [fk_cols, List.mem_filter] at hcolM
  obtain ⟨hcolMem, hcolCond⟩ := hcolM
  rw [Bool.and_eq_true, Bool.and_eq_true] at hcolCond
  obtain ⟨⟨hfk, htrT⟩, htrC⟩ := hcolCond
  rw [MigStmt.foreignKey.injEq] at hEq
  obtain ⟨hEq1, hEq2, hEq3, hEq4⟩ := hEq
  have hreft : col.references_table = some rt := hEq3 ▸ ref_truthy_some htrT
  have hrefc : col.references_column = some rc := hEq4 ▸ ref_truthy_some htrC
  -- the well-formedness target: a table named rt with a column named rc
  have hwfp := List.all_eq_true.mp (List.all_eq_true.mp hrefs p hp) col hcolMem
  rw [hfk, htrT, htrC] at hwfp
  simp only [Bool.and_self, Bool.not_true, Bool.false_or] at hwfp
  rw [List.any_eq_true] at hwfp
  obtain ⟨q, hq, hqb⟩ := hwfp
  rw [Bool.and_eq_true] at hqb
  obtain ⟨hq1, hq2⟩ := hqb
  have hqrt : q.1 = rt := by
    rw [hreft] at hq1
    simpa using hq1
  rw [List.any_eq_true] at hq2
  obtain ⟨r, hr, hrb⟩ := hq2
  have hrrc : r.name = rc := by
    rw [hrefc] at hrb
    simpa using hrb
  constructor
  · -- the CREATE of the referenced table comes first
    obtain ⟨m0, hm0⟩ := List.mem_iff_getElem?.mp hq
    have hm0lt : m0 < ti.length := (List.getElem?_eq_some_iff.mp hm0).1
    have hm0lt' : m0 < (create_stmts ti).length := by
      simpa [create_stmts] using hm0lt
    refine ⟨m0, Nat.lt_of_lt_of_le hm0lt' hAle, q, hq, hqrt, ?_⟩
    rw [mig_statements, List.append_assoc, List.getElem?_append_left hm0lt', create_stmts,
      List.getElem?_map, hm0]
    rfl
  · -- the unique constraint of the referenced column comes first
    intro hnp
    have hpair : (rt, rc) ∈ unique_gen_ref_pairs ti := by
      rw [unique_gen_ref_pairs, List.mem_flatMap]
      refine ⟨p, hp, ?_⟩
      rw [List.mem_filterMap]
      refine ⟨col, hcolF, ?_⟩
      show (match ti.find? (fun q' => q'.1 == col.references_table.getD "") with
        | some q' =>
            if q'.2.columns.any (fun r' =>
                r'.name == col.references_column.getD "" && !r'.is_primary_key)
            then some (col.references_table.getD "", col.references_column.getD "")
            else none
        | none => none) = some (rt, rc)
      rw [hreft, hrefc]
      show (match ti.find? (fun q' => q'.1 == rt) with
        | some q' =>
            if q'.2.columns.any (fun r' => r'.name == rc && !r'.is_primary_key)
            then some (rt, rc) else none
        | none => none) = some (rt, rc)
      cases hfind : ti.find? (fun q' => q'.1 == rt) with
      | none =>
        have := List.find?_eq_none.mp hfind q hq
        simp [hqrt] at this
      | some q0 =>
        have hq0m := List.mem_of_find?_eq_some hfind
        have hq0rt : q0.1 = rt := by simpa using List.find?_some hfind
        have hq0q : q0 = q :=
          List.inj_on_of_nodup_map hnd hq0m hq (by rw [hq0rt, hqrt])
        subst hq0q
        have hrpk : r.is_primary_key = false := by
          have h0 := List.all_eq_true.mp hnp q0 hq
          have hall : (q0.2.columns.all
              (fun r' => !(r'.name == rc) || !r'.is_primary_key)) = true := by
            simpa [hq0rt] using h0
          have h1 := List.all_eq_true.mp hall r hr
          rw [hrrc] at h1
          simpa using h1
        have hany : q0.2.columns.any
            (fun r' => r'.name == rc && !r'.is_primary_key) = true := by
          rw [List.any_eq_true]
          exact ⟨r, hr, by simp [hrrc, hrpk]⟩
        show (if (q0.2.columns.any
            (fun r' => r'.name == rc && !r'.is_primary_key)) = true
            then some (rt, rc) else none) = some (rt, rc)
        rw [if_pos hany]
    have hdp : (rt, rc) ∈ dedup_keep_first [] (unique_gen_ref_pairs ti) :=
      mem_dedup_keep_first _ _ [] hpair (by simp)
    have hmemB : MigStmt.uniqueKey rt rc ∈ unique_constraint_stmts ti := by
      rw [unique_constraint_stmts, List.mem_map]
      exact ⟨(rt, rc), hdp, rfl⟩
    obtain ⟨m1, hm1⟩ := List.mem_iff_getElem?.mp hmemB
    have hm1lt : m1 < (unique_constraint_stmts ti).length :=
      (List.getElem?_eq_some_iff.mp hm1).1
    refine ⟨(create_stmts ti).length + m1, ?_, ?_⟩
    · omega
    · rw [mig_statements, List.append_assoc,
        List.getElem?_append_right (Nat.le_add_right _ m1),
        Nat.add_sub_cancel_left, List.getElem?_append_left hm1lt]
      exact hm1

/-- Witness for C5: in the demo migration plan the foreign key
`enroll.sid → students.sid` (statement index 3) is preceded by the CREATE
of `students` (index 0) and by the unique constraint on `students.sid`
(index 2, since `sid` is not the primary key of `students`). -/
theorem fk_after_create_and_unique_witness :
    (∃ m, m < 3 ∧ ∃ q, q ∈ demoTI ∧ q.1 = "students" ∧
        (mig_statements demoTI)[m]? = some (.create q.2)) ∧
    ((demoTI.all (fun q => !(q.1 == "students") ||
        q.2.columns.all (fun r => !(r.name == "sid") || !r.is_primary_key)) = true) →
      ∃ m, m < 3 ∧ (mig_statements demoTI)[m]? = some (.uniqueKey "students" "sid")) :=
  fk_after_create_and_unique demoTI (by decide) 3 "enroll" "sid" "students" "sid"
    (by decide)

end ExcelMariaDB
